import Mathlib

/-!
Shallow embedding of the book-sentiment-search repository
(two iterations: `app.py`, the main variant, and `app_re01.py`, the early
variant), together with theorems checking the natural-language
specification against it.

The external morphological tokenizer (janome) is a black box: it is
modelled as a parameter `tokenize : String → List Token` producing the
tagged token stream.  Python strings are modelled through their code-point
lists (`String.data`); pandas column operations are modelled as list
operations, with the (unstable, but deterministic on fixed data) pandas
sorts modelled as stable sorts by the same key.
-/

/-- One token produced by the morphological analyzer: the full
comma-separated part-of-speech string and the surface / dictionary
(base) forms. -/
structure Token where
  part_of_speech : String
  surface : String
  base_form : String
  deriving DecidableEq

/-- One row of the corpus table after `load_data`: the CSV columns
(lower-cased names), the derived `genres_list` column (comma-split,
trimmed, empties dropped) and the derived `keywords` column
(`extract_target_words` applied to `review`).  The early variant names
the genre column `genre_list` and the fourth axis `paranormal`; the same
record type serves both. -/
structure Book where
  title : String
  author : String
  review : String
  genres_list : List String
  isbn : String
  erotic : Int
  grotesque : Int
  insane : Int
  paranomal : Int
  esthetic : Int
  painful : Int
  action : Int
  mystery : Int
  keywords : List String
  deriving DecidableEq

/-! ### Python string primitives over code-point lists -/

/-- Python's substring test `pat in s` on strings. -/
def containsSub : List Char → List Char → Bool
  | [], pat => pat.isEmpty
  | c :: rest, pat => pat.isPrefixOf (c :: rest) || containsSub rest pat

/-- Helper for `pyStrCount`: count non-overlapping occurrences of a
non-empty pattern, scanning left to right as CPython does.  The `fuel`
argument (initialised to the scanned list's length, which strictly
bounds every recursive call) only makes the recursion structural. -/
def strCountAux (sub : List Char) : Nat → List Char → Nat
  | _, [] => 0
  | 0, _ => 0
  | fuel + 1, c :: rest =>
    if sub.isPrefixOf (c :: rest) then
      1 + strCountAux sub fuel (List.drop (sub.length - 1) rest)
    else
      strCountAux sub fuel rest

/-- Python `s.count(sub)`: number of non-overlapping occurrences of
`sub` in `s`; for the empty pattern CPython returns `len(s) + 1`. -/
def pyStrCount (s sub : String) : Nat :=
  if sub.data.isEmpty then s.data.length + 1
  else strCountAux sub.data s.data.length s.data

/-- Python `s.split(",")[0]`: the longest prefix before the first comma. -/
def posHead (s : String) : List Char :=
  s.data.takeWhile (fun c => c ≠ ',')

/-! ### app.py: adjective extraction -/

/-- `POS_TARGETS` of app.py. -/
def POS_TARGETS : List String := ["形容詞", "形容動詞"]

/-- Does `t.part_of_speech.split(",")[0]` lie in `POS_TARGETS`? -/
def isTargetPOS (pos : String) : Bool :=
  POS_TARGETS.any (fun p => p.data == posHead pos)

/-- app.py `extract_target_words`: collect the base forms of the tokens
whose leading part-of-speech component is in `POS_TARGETS`, then append
every word of `ABSTRACTWORDS` that occurs as a substring of the text.
`abstractwords` is the iteration order of the Python set `ABSTRACTWORDS`
(its elements are pairwise distinct).  Note that no stopword filtering
happens here. -/
def extract_target_words (tokenize : String → List Token)
    (abstractwords : List String) (text : String) : List String :=
  ((tokenize text).filter (fun t => isTargetPOS t.part_of_speech)).map Token.base_form
    ++ abstractwords.filter (fun w => containsSub text.data w.data)

/-- The built-in default stopword set of `load_stopwords`
(used when stopwords.txt is absent). -/
def load_stopwords_default : List String := ["ない", "っぽい"]

/-! ### app.py: ISBN normalization -/

/-- The character class kept by `re.sub(r"[^0-9Xx]", "", s)`. -/
def isbnKeep (c : Char) : Bool := c.isDigit || c == 'X' || c == 'x'

/-- app.py `normalize_isbn`: empty/falsy input maps to `""`; otherwise
NFKC-normalize (the Unicode normalization is a black-box parameter; it
is the identity on ASCII strings) and delete every character outside
`[0-9Xx]`. -/
def normalize_isbn (nfkc : String → String) (isbn_str : String) : String :=
  if isbn_str = "" then "" else ⟨(nfkc isbn_str).data.filter isbnKeep⟩

/-- Modelled from the spec: the shape the spec asserts for a normalized
ISBN — digits possibly followed by a single uppercase `X`. -/
def spec_isbn_shape (s : String) : Bool :=
  match s.data.getLast? with
  | none => true
  | some c => s.data.dropLast.all Char.isDigit && (c.isDigit || c == 'X')

/-! ### app.py: search and rank engine (`to_results`) -/

/-- The spec-range keys iterated by `to_results`. -/
def spec_keys : List String :=
  ["erotic", "grotesque", "insane", "paranomal", "esthetic", "painful",
   "action", "mystery"]

/-- Column access `tmp[k]` for a spec key. -/
def Book.specVal (b : Book) : String → Int
  | "erotic" => b.erotic
  | "grotesque" => b.grotesque
  | "insane" => b.insane
  | "paranomal" => b.paranomal
  | "esthetic" => b.esthetic
  | "painful" => b.painful
  | "action" => b.action
  | "mystery" => b.mystery
  | _ => 0

/-- app.py genre filtering inside `to_results`: with an empty selection
the filter is skipped; otherwise keep the rows for which some selected
genre occurs in the row's genre list. -/
def genreFilter (selected_genres : List String) (books : List Book) :
    List Book :=
  if selected_genres.isEmpty then books
  else books.filter (fun b => selected_genres.any (fun g => b.genres_list.contains g))

/-- app.py spec filtering inside `to_results`: for each key with an
active `(min, max)` range keep the rows whose value lies inclusively
inside it. -/
def specFilter (spec_ranges : String → Option (Int × Int))
    (books : List Book) : List Book :=
  spec_keys.foldl (fun acc k =>
    match spec_ranges k with
    | none => acc
    | some (lo, hi) =>
        acc.filter (fun b => decide (lo ≤ b.specVal k) && decide (b.specVal k ≤ hi)))
    books

/-- Descending-by-count order used for the `sort_values(ascending=False)`
calls of both variants. -/
def countGe {α : Type} (a b : α × Nat) : Prop := b.2 ≤ a.2

instance {α : Type} : DecidableRel (countGe (α := α)) :=
  fun a b => Nat.decLe b.2 a.2

instance {α : Type} : IsTotal (α × Nat) countGe :=
  ⟨fun a b => Nat.le_total b.2 a.2⟩

instance {α : Type} : IsTrans (α × Nat) countGe :=
  ⟨fun _ _ _ hab hbc => Nat.le_trans hbc hab⟩

/-- One row of `st.session_state.results`. -/
structure ResultRow where
  book : Book
  count : Nat
  rank : Nat
  deriving DecidableEq

/-- app.py `to_results`: genre filter, spec filter,
`count = keywords.count(adj)` (exact element multiplicity), keep the
rows with positive count, sort by count descending (pandas sort modelled
as a stable sort on the same key), and attach the
`rank(method="min", ascending=False)` column: each row's rank is one
plus the number of rows with a strictly larger count. -/
def to_results (adj : String) (selected_genres : List String)
    (spec_ranges : String → Option (Int × Int)) (books : List Book) :
    List ResultRow :=
  let tmp := specFilter spec_ranges (genreFilter selected_genres books)
  let counted := tmp.map (fun b => (b, b.keywords.count adj))
  let res := counted.filter (fun p => decide (0 < p.2))
  let sortedRes := List.insertionSort countGe res
  sortedRes.map (fun p =>
    ⟨p.1, p.2, (sortedRes.filter (fun q => decide (p.2 < q.2))).length + 1⟩)

/-! ### app.py: suggestion list and detail-view word-cloud tally -/

/-- Helper for `distinctFirstSeen`: drop the elements already `seen`. -/
def distinctAux (seen : List String) : List String → List String
  | [] => []
  | x :: xs =>
    if seen.contains x then distinctAux seen xs
    else x :: distinctAux (x :: seen) xs

/-- The distinct elements of a list, keeping the first occurrence of
each: the key order of a Python `Counter`/`dict` built from the list,
and pandas' order of unique values. -/
def distinctFirstSeen (l : List String) : List String := distinctAux [] l

/-- Code-point lexicographic order, as Python compares strings. -/
def lexLe : List Char → List Char → Bool
  | [], _ => true
  | _ :: _, [] => false
  | a :: as, b :: bs => decide (a.val < b.val) || (a == b && lexLe as bs)

/-- The ordering relation used to model Python's `sorted` on strings. -/
def strLe (a b : String) : Prop := lexLe a.data b.data = true

instance : DecidableRel strLe :=
  fun a b => instDecidableEqBool (lexLe a.data b.data) true

/-- app.py `all_keywords`: the sorted set of all words occurring in any
book's `keywords` column. -/
def all_keywords (books : List Book) : List String :=
  List.insertionSort strLe (distinctFirstSeen ((books.map (fun b => b.keywords)).flatten))

/-- app.py `suggestions`: the members of `all_keywords` that are not
stopwords. -/
def suggestions (books : List Book) (stopwords : List String) :
    List String :=
  (all_keywords books).filter (fun w => !(stopwords.contains w))

/-- app.py detail view: `Counter(book["keywords"])` followed by
`cnt.pop(sw, None)` for every stopword.  A `Counter` tallies exact
multiplicities, iterating keys in first-insertion order. -/
def wordCloudCounter (kws stopwords : List String) :
    List (String × Nat) :=
  ((distinctFirstSeen kws).map (fun w => (w, kws.count w))).filter
    (fun p => !(stopwords.contains p.1))

/-! ### app_re01.py: early-variant search, ranking display and detail -/

/-- app_re01.py genre filter: a single selected genre from the
selectbox, with `"All"` meaning no restriction; otherwise keep the rows
whose genre list contains the selected genre. -/
def genreFilter_re01 (genre_filter : String) (books : List Book) :
    List Book :=
  if genre_filter = "All" then books
  else books.filter (fun b => b.genres_list.contains genre_filter)

/-- app_re01.py search submission: after the genre filter,
`match_score = review.count(adj_input)` (Python substring count on the
raw review text), keep the rows with positive score, sort by score
descending. -/
def search_re01 (adj_input : String) (genre_filter : String)
    (books : List Book) : List (Book × Nat) :=
  let df_f := genreFilter_re01 genre_filter books
  let scored := df_f.map (fun b => (b, pyStrCount b.review adj_input))
  List.insertionSort countGe (scored.filter (fun p => decide (0 < p.2)))

/-- app_re01.py ranking screen: one selectable button per row of
`ranking.head(10)`, labelled `f"{idx+1}位: {title} / {author} （{score}回）"`.
Modelled as the structured content of each label: the displayed rank
number `idx + 1` together with the row. -/
def rankingEntries (ranking : List (Book × Nat)) :
    List (Nat × Book × Nat) :=
  (ranking.take 10).enum.map (fun p => (p.1 + 1, p.2))

/-- app_re01.py detail: the surface forms of the tokens whose
part-of-speech string starts with `形容詞,自立`. -/
def surface_adjectives (tokenize : String → List Token) (text : String) :
    List String :=
  ((tokenize text).filter
      (fun t => List.isPrefixOf "形容詞,自立".data t.part_of_speech.data)).map
    Token.surface

/-- pandas `Series.value_counts()`: the distinct values (first-appearance
order) with their exact multiplicities, sorted by count descending
(modelled stable).  No stopword removal happens here. -/
def value_counts (tokens : List String) : List (String × Nat) :=
  List.insertionSort countGe ((distinctFirstSeen tokens).map (fun w => (w, tokens.count w)))

/-- app_re01.py `top5`: `value_counts().head(5)` over the extracted
surface adjectives of the selected book's review. -/
def top5 (tokenize : String → List Token) (text : String) :
    List (String × Nat) :=
  (value_counts (surface_adjectives tokenize text)).take 5

/-! ### app.py: session state machine and the detail-page guard -/

/-- The pages of `st.session_state.page`. -/
inductive Page
  | home
  | results
  | detail
  deriving DecidableEq

/-- The parts of `st.session_state` relevant to navigation:
`page`, `results` and `detail_idx` (a Python int or `None`). -/
structure SessionState where
  page : Page
  results : List ResultRow
  detail_idx : Option Int
  deriving DecidableEq

/-- The session transitions of app.py.  `search` is `to_results` (invoked
from the home screen's search button or the results screen's re-search
button): it overwrites `results` and moves to the results page, leaving
`detail_idx` untouched.  `select` is `to_detail(i)`, only ever invoked
from the per-row buttons of the results page, so `i` is a row index of
the current `results`.  `back_home` is `to_home`, `back_results` is
`to_results_page`. -/
inductive Step (books : List Book) : SessionState → SessionState → Prop
  | search (adj : String) (sel : List String)
      (ranges : String → Option (Int × Int)) (s : SessionState) :
      Step books s ⟨Page.results, to_results adj sel ranges books, s.detail_idx⟩
  | select (s : SessionState) (i : Nat) (hi : i < s.results.length) :
      Step books s ⟨Page.detail, s.results, some (i : Int)⟩
  | back_home (s : SessionState) :
      Step books s ⟨Page.home, s.results, s.detail_idx⟩
  | back_results (s : SessionState) :
      Step books s ⟨Page.results, s.results, s.detail_idx⟩

/-- States reachable from the initial session state
(`page = "home"`, `results` empty, `detail_idx = None`). -/
inductive Reachable (books : List Book) : SessionState → Prop
  | init : Reachable books ⟨Page.home, [], none⟩
  | step {s t : SessionState} : Reachable books s → Step books s t →
      Reachable books t

/-- What the detail page renders. -/
inductive DetailOutcome
  | invalidMsg
  | view (r : ResultRow)
  | keyError
  deriving DecidableEq

/-- app.py detail page: `if idx is None or idx >= len(res):` render the
invalid-selection error message `"不正な選択です。"`; otherwise
`res.loc[idx]`, which on the 0-based integer row labels of `results`
succeeds for `0 ≤ idx < len(res)` and raises a `KeyError` for a negative
label. -/
def render_detail (res : List ResultRow) (idx : Option Int) :
    DetailOutcome :=
  match idx with
  | none => DetailOutcome.invalidMsg
  | some i =>
    if h1 : (res.length : Int) ≤ i then DetailOutcome.invalidMsg
    else if h2 : 0 ≤ i then
      DetailOutcome.view (res.get ⟨i.toNat, by omega⟩)
    else DetailOutcome.keyError

/-! ### Concrete data used by witnesses and counterexamples -/

/-- A book record with the given title, review, genres and extracted
keywords; the remaining columns are neutral. -/
def mkBook (title review : String) (genres kws : List String) : Book :=
  ⟨title, "著者", review, genres, "", 0, 0, 0, 0, 0, 0, 0, 0, kws⟩

/-- The spec's example book A. -/
def bookA : Book :=
  mkBook "A" "とても怖い話だった。怖い夜だった。" ["horror", "ghost"]
    ["怖い", "怖い"]

/-- The spec's example book B. -/
def bookB : Book :=
  mkBook "B" "優しい話だった。" ["healing"] ["優しい"]

/-- The spec's example corpus. -/
def exBooks : List Book := [bookA, bookB]

/-- No active spec ranges. -/
def noRanges : String → Option (Int × Int) := fun _ => none

/-- A tokenizer producing no tokens at all. -/
def tokenizeNone : String → List Token := fun _ => []

/-- A tokenizer tagging the single adjective token 「ない」
(as janome does on a review whose only adjective is ない). -/
def tokenizeNai : String → List Token :=
  fun _ => [⟨"形容詞,自立,*,*", "ない", "ない"⟩]

/-- The first book of the six-book ranking example. -/
def bA7 : Book :=
  mkBook "A7" "怖い怖い怖い怖い怖い怖い怖い" [] (List.replicate 7 "怖い")

/-- A corpus of six books whose target-word counts (for 「怖い」, both as
keyword multiplicity and as review substring count) are
7, 7, 5, 3, 3, 1. -/
def c2Books : List Book :=
  [bA7,
   mkBook "B7" "怖い怖い怖い怖い怖い怖い怖い" [] (List.replicate 7 "怖い"),
   mkBook "C5" "怖い怖い怖い怖い怖い" [] (List.replicate 5 "怖い"),
   mkBook "D3" "怖い怖い怖い" [] (List.replicate 3 "怖い"),
   mkBook "E3" "怖い怖い怖い" [] (List.replicate 3 "怖い"),
   mkBook "F1" "怖い" [] (List.replicate 1 "怖い")]

/-- The book used to separate substring counting from keyword
multiplicity:  「し」 occurs inside the review text but is not an
element of the keyword list. -/
def bookY : Book := mkBook "Y" "優しい話" ["healing"] ["優しい"]

/-- A stale navigation state: after viewing the single result of a
first search for 「怖い」, a second search for 「悲しい」 empties the
result list while `detail_idx` still holds the old row index 0. -/
def staleState : SessionState :=
  ⟨Page.results, to_results "悲しい" [] noRanges exBooks, some 0⟩

/-! ### Helper lemmas -/

theorem mem_distinctAux {a : String} {l seen : List String} :
    a ∈ distinctAux seen l ↔ a ∈ l ∧ ¬ a ∈ seen := by
  induction l generalizing seen with
  | nil => simp [distinctAux]
  | cons x xs ih =>
    by_cases hx : seen.contains x
    · rw [distinctAux, if_pos hx, ih]
      have hxs : x ∈ seen := List.elem_iff.mp hx
      constructor
      · rintro ⟨hmem, hns⟩; exact ⟨List.mem_cons_of_mem _ hmem, hns⟩
      · rintro ⟨hmem, hns⟩
        rcases List.mem_cons.mp hmem with rfl | hmem
        · exact absurd hxs hns
        · exact ⟨hmem, hns⟩
    · rw [distinctAux, if_neg hx]
      by_cases hax : a = x
      · subst hax
        simp [List.elem_iff] at hx
        simp [hx]
      · simp [hax, ih]

theorem mem_distinctFirstSeen {a : String} {l : List String} :
    a ∈ distinctFirstSeen l ↔ a ∈ l := by
  simp [distinctFirstSeen, mem_distinctAux]

/-- Membership in a `(b, g b)`-shaped pair list determines the second
component. -/
theorem snd_of_mem_map_pair {α β : Type} {g : α → β} {p : α × β}
    {l : List α} (h : p ∈ l.map (fun b => (b, g b))) : p.2 = g p.1 := by
  obtain ⟨b, _, rfl⟩ := List.mem_map.mp h
  rfl

/-- Filtering a mapped list has the same length as filtering the
original list by the composed predicate. -/
theorem length_filter_of_map {α β : Type} (f : α → β) (p : β → Bool)
    (l : List α) :
    ((l.map f).filter p).length = (l.filter (fun a => p (f a))).length := by
  induction l with
  | nil => rfl
  | cons x xs ih =>
    simp only [List.map_cons, List.filter_cons]
    cases p (f x) <;> simp [ih]

/-! ### Claims -/

/-- C1 (counterexample): the claim fails on the early variant
app_re01.py.  For book Y (review 「優しい話」, descriptive-word list
[「優しい」]) and target word 「し」, the search assigns score 1 (a raw
substring hit in the review text) although the multiplicity of 「し」 in
the descriptive-word list is 0. -/
theorem C1_counterexample :
    search_re01 "し" "All" [bookY] = [(bookY, 1)] ∧
    bookY.keywords.count "し" = 0 :=
  ⟨by decide, by decide⟩

/-- C1 (amended): in app.py's `to_results` every result row's `count` is
the exact multiplicity (case-sensitive element equality) of the target
word in that book's extracted keyword list; in app_re01.py the
`match_score` of every result row is the number of non-overlapping
substring occurrences of the target word in the raw review text. -/
theorem C1_count_multiplicity :
    (∀ (adj : String) (sel : List String)
       (ranges : String → Option (Int × Int)) (books : List Book)
       (r : ResultRow), r ∈ to_results adj sel ranges books →
         r.count = r.book.keywords.count adj) ∧
    (∀ (adj g : String) (books : List Book) (p : Book × Nat),
       p ∈ search_re01 adj g books → p.2 = pyStrCount p.1.review adj) := by
  constructor
  · intro adj sel ranges books r hr
    simp only [to_results] at hr
    obtain ⟨p, hp, rfl⟩ := List.mem_map.mp hr
    have hres := (List.perm_insertionSort countGe _).mem_iff.mp hp
    have hcnt := List.mem_filter.mp hres
    exact snd_of_mem_map_pair hcnt.1
  · intro adj g books p hp
    simp only [search_re01] at hp
    have hres := (List.perm_insertionSort countGe _).mem_iff.mp hp
    have hcnt := List.mem_filter.mp hres
    exact snd_of_mem_map_pair hcnt.1

/-- C1 (witness). -/
theorem C1_count_multiplicity_witness :
    (⟨bookA, 2, 1⟩ : ResultRow) ∈ to_results "怖い" [] noRanges exBooks ∧
    (⟨bookA, 2, 1⟩ : ResultRow).count = bookA.keywords.count "怖い" :=
  ⟨by decide,
   C1_count_multiplicity.1 "怖い" [] noRanges exBooks ⟨bookA, 2, 1⟩ (by decide)⟩

/-- C2 (counterexample): the early variant app_re01.py labels its result
rows sequentially.  On a ranking whose scores are [7, 7, 5, 3, 3, 1],
the displayed rank numbers are 1, 2, 3, 4, 5, 6 — the second
score-7 book is shown as 2位 rather than sharing rank 1. -/
theorem C2_counterexample :
    (search_re01 "怖い" "All" c2Books).map Prod.snd = [7, 7, 5, 3, 3, 1] ∧
    (rankingEntries (search_re01 "怖い" "All" c2Books)).map Prod.fst =
      [1, 2, 3, 4, 5, 6] :=
  ⟨by decide, by decide⟩

/-- C2 (amended): app.py assigns ranks by the competition
(minimum-rank) convention — every result row's rank equals one plus the
number of result rows with a strictly larger count, and for counts
[7, 7, 5, 3, 3, 1] the ranks are [1, 1, 3, 4, 4, 6]; the early variant
app_re01.py instead displays sequential position numbers (see the
counterexample). -/
theorem C2_rank_min :
    (∀ (adj : String) (sel : List String)
       (ranges : String → Option (Int × Int)) (books : List Book)
       (r : ResultRow), r ∈ to_results adj sel ranges books →
         r.rank = ((to_results adj sel ranges books).filter
           (fun q => decide (r.count < q.count))).length + 1) ∧
    (to_results "怖い" [] noRanges c2Books).map ResultRow.rank =
      [1, 1, 3, 4, 4, 6] := by
  constructor
  · intro adj sel ranges books r hr
    simp only [to_results] at hr ⊢
    obtain ⟨p, hp, rfl⟩ := List.mem_map.mp hr
    rw [length_filter_of_map]
  · decide

/-- C2 (witness). -/
theorem C2_rank_min_witness :
    (⟨bA7, 7, 1⟩ : ResultRow) ∈ to_results "怖い" [] noRanges c2Books ∧
    (⟨bA7, 7, 1⟩ : ResultRow).rank =
      ((to_results "怖い" [] noRanges c2Books).filter
        (fun q => decide ((⟨bA7, 7, 1⟩ : ResultRow).count < q.count))).length
        + 1 :=
  ⟨by decide,
   C2_rank_min.1 "怖い" [] noRanges c2Books ⟨bA7, 7, 1⟩ (by decide)⟩

/-- C3 (counterexample): `extract_target_words` applies no stopword
filtering.  With the tokenizer tagging the adjective 「ない」 in the
review 「つまらない」, the extracted descriptive-word list contains
「ない」, a member of the (default) stopword set. -/
theorem C3_counterexample :
    "ない" ∈ extract_target_words tokenizeNai [] "つまらない" ∧
    "ない" ∈ load_stopwords_default :=
  ⟨by decide, by decide⟩

/-- C3 (amended): the extractor itself performs no stopword exclusion —
every token tagged with a target part of speech contributes its base
form to the output, stopword or not.  The stopword set is applied only
downstream: the search-suggestion list and the detail-view word-cloud
tally contain no stopword. -/
theorem C3_stopwords_applied_downstream :
    (∀ (books : List Book) (stop : List String) (w : String),
       w ∈ stop → w ∉ suggestions books stop) ∧
    (∀ (kws stop : List String) (w : String) (n : Nat),
       w ∈ stop → (w, n) ∉ wordCloudCounter kws stop) ∧
    (∀ (tokenize : String → List Token) (aws : List String)
       (text : String) (t : Token), t ∈ tokenize text →
         isTargetPOS t.part_of_speech = true →
         t.base_form ∈ extract_target_words tokenize aws text) := by
  refine ⟨?_, ?_, ?_⟩
  · intro books stop w hw hmem
    have h := (List.mem_filter.mp hmem).2
    simp only [Bool.not_eq_true'] at h
    have h2 : stop.contains w = true := List.elem_iff.mpr hw
    rw [h2] at h
    cases h
  · intro kws stop w n hw hmem
    have h := (List.mem_filter.mp hmem).2
    simp only [Bool.not_eq_true'] at h
    have h2 : stop.contains w = true := List.elem_iff.mpr hw
    rw [h2] at h
    cases h
  · intro tokenize aws text t ht hpos
    refine List.mem_append_left _ ?_
    exact List.mem_map.mpr ⟨t, List.mem_filter.mpr ⟨ht, hpos⟩, rfl⟩

/-- C3 (witness). -/
theorem C3_stopwords_applied_downstream_witness :
    "ない" ∈ load_stopwords_default ∧
    "ない" ∉ suggestions exBooks load_stopwords_default :=
  ⟨by decide,
   C3_stopwords_applied_downstream.1 exBooks load_stopwords_default "ない"
     (by decide)⟩

/-- C4: evaluation at the failing input.  In app.py an empty target word
yields an empty result set, but in app_re01.py `"".count` semantics give
every book the score `len(review) + 1`, so an empty search returns the
whole (genre-filtered) corpus ranked by review length — here both
example books, with scores 18 and 9. -/
theorem C4_empty_word_eval :
    to_results "" [] noRanges exBooks = [] ∧
    search_re01 "" "All" exBooks = [(bookA, 18), (bookB, 9)] :=
  ⟨by decide, by decide⟩

/-- C5: genre filtering with no selection is the identity, and with a
non-empty selection keeps exactly the books sharing at least one genre
tag with the selection (any-match), in both variants (the early variant
selects a single genre, with "All" meaning no restriction). -/
theorem C5_genre_filter :
    (∀ books : List Book, genreFilter [] books = books) ∧
    (∀ (sel : List String) (books : List Book) (b : Book), sel ≠ [] →
       (b ∈ genreFilter sel books ↔
         b ∈ books ∧ ∃ g ∈ sel, g ∈ b.genres_list)) ∧
    (∀ books : List Book, genreFilter_re01 "All" books = books) ∧
    (∀ (g : String) (books : List Book) (b : Book), g ≠ "All" →
       (b ∈ genreFilter_re01 g books ↔ b ∈ books ∧ g ∈ b.genres_list)) := by
  refine ⟨?_, ?_, ?_, ?_⟩
  · intro books; simp [genreFilter]
  · intro sel books b hsel
    have h : sel.isEmpty = false := by
      cases sel with
      | nil => exact absurd rfl hsel
      | cons a l => rfl
    simp [genreFilter, h, List.mem_filter, List.any_eq_true, List.elem_iff]
  · intro books; simp [genreFilter_re01]
  · intro g books b hg
    simp [genreFilter_re01, hg, List.mem_filter, List.elem_iff]

/-- C5 (witness). -/
theorem C5_genre_filter_witness :
    bookA ∈ genreFilter ["horror"] exBooks ∧
    bookB ∈ genreFilter_re01 "healing" exBooks :=
  ⟨(C5_genre_filter.2.1 ["horror"] exBooks bookA (by decide)).mpr
      ⟨by decide, "horror", by decide, by decide⟩,
   (C5_genre_filter.2.2.2 "healing" exBooks bookB (by decide)).mpr
      ⟨by decide, by decide⟩⟩

/-- C6 (counterexample): the early variant's detail summarizer removes
no stopwords: on a review whose single adjective token is 「ない」, the
top-5 list is [(「ない」, 1)] although 「ない」 is in the (default)
stopword set.  (The main variant's detail view shows a word cloud of the
full stopword-filtered tally instead of a top-5 list.) -/
theorem C6_counterexample :
    top5 tokenizeNai "つまらない" = [("ない", 1)] ∧
    "ない" ∈ load_stopwords_default :=
  ⟨by decide, by decide⟩

/-- C6 (amended): the early variant's detail summarizer returns at most
five (word, count) pairs, each count being the exact multiplicity of the
word among the extracted adjective surface forms, every listed word
occurring among those forms, and the list sorted by descending count
(ties in first-occurrence order, as modelled) — with no stopword
removal. -/
theorem C6_top5 :
    ∀ (tokenize : String → List Token) (text : String),
      (top5 tokenize text).length ≤ 5 ∧
      (∀ p : String × Nat, p ∈ top5 tokenize text →
         p.2 = (surface_adjectives tokenize text).count p.1 ∧
         p.1 ∈ surface_adjectives tokenize text) ∧
      List.Pairwise countGe (top5 tokenize text) := by
  intro tokenize text
  refine ⟨?_, ?_, ?_⟩
  · simp only [top5, List.length_take]
    exact min_le_left _ _
  · intro p hp
    simp only [top5] at hp
    have hsorted : p ∈ value_counts (surface_adjectives tokenize text) :=
      (List.take_sublist 5 _).subset hp
    simp only [value_counts] at hsorted
    have hmem := (List.perm_insertionSort countGe _).mem_iff.mp hsorted
    obtain ⟨w, hw, rfl⟩ := List.mem_map.mp hmem
    exact ⟨rfl, mem_distinctFirstSeen.mp hw⟩
  · simp only [top5, value_counts]
    exact List.Pairwise.sublist (List.take_sublist 5 _)
      (List.sorted_insertionSort countGe _)

/-- C6 (witness). -/
theorem C6_top5_witness :
    ("ない", 1) ∈ top5 tokenizeNai "つまらない" ∧
    (1 : Nat) = (surface_adjectives tokenizeNai "つまらない").count "ない" :=
  ⟨by decide,
   ((C6_top5 tokenizeNai "つまらない").2.1 ("ない", 1) (by decide)).1⟩

/-- C7 (counterexample): `normalize_isbn` neither uppercases a trailing
check character nor restricts `x` to the trailing position: the ASCII
input "123-x" (on which NFKC is the identity) normalizes to "123x",
which is not of the digits-then-optional-uppercase-X shape the spec
asserts. -/
theorem C7_counterexample :
    normalize_isbn id "123-x" = "123x" ∧ spec_isbn_shape "123x" = false :=
  ⟨by decide, by decide⟩

/-- C7 (amended): normalization deletes every character other than the
digits and the letters `X`/`x` (after NFKC), preserving case, so every
character of a normalized ISBN is a digit, `X`, or `x`. -/
theorem C7_normalized_shape :
    ∀ (nfkc : String → String) (s : String),
      ((normalize_isbn nfkc s).data.all isbnKeep) = true := by
  intro nfkc s
  by_cases h : s = ""
  · simp [normalize_isbn, h]
  · simp only [normalize_isbn, if_neg h]
    exact List.all_eq_true.mpr (fun c hc => (List.mem_filter.mp hc).2)

/-- C8 invariant: along every reachable session state, a non-`None`
`detail_idx` is non-negative (it was stored from a row index of the
then-current result list). -/
theorem reachable_detail_idx_nonneg {books : List Book}
    {s : SessionState} (h : Reachable books s) :
    ∀ i : Int, s.detail_idx = some i → 0 ≤ i := by
  induction h with
  | init => intro i hi; cases hi
  | step hr hstep ih =>
    cases hstep with
    | search adj sel ranges s => exact ih
    | select s i hi =>
      intro j hj
      cases hj
      exact Int.natCast_nonneg i
    | back_home s => exact ih
    | back_results s => exact ih

/-- C8: in every reachable session state, rendering the detail page
never raises: a `detail_idx` of `None`, and every stale index at or
beyond the current result count, renders the explicit invalid-selection
message (`st.error("不正な選択です。")`) instead of an error. -/
theorem C8_detail_guard (books : List Book) (s : SessionState)
    (h : Reachable books s) :
    render_detail s.results s.detail_idx ≠ DetailOutcome.keyError ∧
    (s.detail_idx = none →
       render_detail s.results s.detail_idx = DetailOutcome.invalidMsg) ∧
    (∀ i : Int, s.detail_idx = some i → (s.results.length : Int) ≤ i →
       render_detail s.results s.detail_idx = DetailOutcome.invalidMsg) := by
  have hinv := reachable_detail_idx_nonneg h
  refine ⟨?_, ?_, ?_⟩
  · cases hidx : s.detail_idx with
    | none => simp [render_detail]
    | some i =>
      have h0 : 0 ≤ i := hinv i hidx
      simp only [render_detail]
      split_ifs with h1
      · intro heq; cases heq
      · intro heq; cases heq
  · intro hidx
    rw [hidx]
    simp [render_detail]
  · intro i hidx hle
    rw [hidx]
    simp only [render_detail]
    rw [dif_pos hle]

/-- C8 (witness): a concrete reachable stale state — search 「怖い」,
open the only result's detail page, then search 「悲しい」 (no match) —
renders the invalid-selection message for the stale index 0. -/
theorem C8_detail_guard_witness :
    Reachable exBooks staleState ∧
    render_detail staleState.results staleState.detail_idx =
      DetailOutcome.invalidMsg := by
  have h1 : Reachable exBooks
      ⟨Page.results, to_results "怖い" [] noRanges exBooks, none⟩ :=
    Reachable.step Reachable.init (Step.search "怖い" [] noRanges _)
  have h2 : Reachable exBooks
      ⟨Page.detail, to_results "怖い" [] noRanges exBooks, some 0⟩ :=
    Reachable.step h1 (Step.select _ 0 (by decide))
  have h3 : Reachable exBooks staleState :=
    Reachable.step h2 (Step.search "悲しい" [] noRanges _)
  exact ⟨h3, (C8_detail_guard exBooks staleState h3).2.2 0 rfl (by decide)⟩

/-- C9: every forced keyword (abstract word) occurring as a substring of
the review text contributes exactly one occurrence, appended after the
token-derived part of the extracted list; a forced keyword not occurring
as a substring contributes none.  The hypothesis is that the forced
keyword list has no duplicates (it is a Python set). -/
theorem C9_forced_words (tokenize : String → List Token)
    (aws : List String) (text : String) (hnd : aws.Nodup) :
    ∀ w ∈ aws,
      (extract_target_words tokenize aws text).count w =
        (((tokenize text).filter
            (fun t => isTargetPOS t.part_of_speech)).map Token.base_form).count w
          + (if containsSub text.data w.data then 1 else 0) := by
  intro w hw
  rw [extract_target_words, List.count_append]
  congr 1
  by_cases hc : containsSub text.data w.data
  · rw [if_pos hc]
    exact List.count_eq_one_of_mem (hnd.filter _)
      (List.mem_filter.mpr ⟨hw, hc⟩)
  · rw [if_neg hc]
    refine List.count_eq_zero.mpr ?_
    intro hmem
    exact hc (List.mem_filter.mp hmem).2

/-- C9 (witness). -/
theorem C9_forced_words_witness :
    (extract_target_words tokenizeNone ["鬱"] "鬱々とした話").count "鬱" =
      (((tokenizeNone "鬱々とした話").filter
          (fun t => isTargetPOS t.part_of_speech)).map Token.base_form).count "鬱"
        + (if containsSub "鬱々とした話".data "鬱".data then 1 else 0) :=
  C9_forced_words tokenizeNone ["鬱"] "鬱々とした話" (by decide) "鬱" (by decide)

/-- C10: the early variant's ranking screen displays (and makes
selectable) exactly the first `min 10 n` rows of an `n`-row ranking:
its entries coincide with those of the ranking truncated to 10 rows,
so at most the first 10 rows are ever shown. -/
theorem C10_head10 :
    ∀ ranking : List (Book × Nat),
      (rankingEntries ranking).length = min 10 ranking.length ∧
      rankingEntries ranking = rankingEntries (ranking.take 10) := by
  intro ranking
  constructor
  · simp [rankingEntries, List.enum_length, List.length_take]
  · simp [rankingEntries, List.take_take]
